import Mathlib

/-!
Shallow embedding of `app.py` (painel Dash "Previsão Divino").

The filesystem is modelled as a list of `(filename, contents)` pairs, where
contents are byte lists.  Python strings are sequences of Unicode code points,
so string primitives here work on `String.data : List Char`, which matches
Python's code-point indexing (`str.replace`, slicing, comparison).
-/

/-- Filesystem snapshot: the files of `IMG_DIR`, as (name, bytes) pairs. -/
abbrev FS : Type := List (String × List Nat)

/-- Lexicographic "less or equal" on code-point sequences, the order Python
uses to compare `str` values (`sorted`, `<`). -/
def lexLeN : List Nat → List Nat → Bool
  | [], _ => true
  | _ :: _, [] => false
  | a :: as, b :: bs =>
    if a < b then true
    else if b < a then false
    else lexLeN as bs

/-- Code-point key of a string. -/
def strKey (s : String) : List Nat := s.data.map Char.toNat

/-- Python string comparison `s <= t` (code-point lexicographic). -/
def pyLe (s t : String) : Bool := lexLeN (strKey s) (strKey t)

/-- The ordering relation used to model Python `sorted` on strings. -/
def pyRel : String → String → Prop := fun s t => pyLe s t = true

instance : DecidableRel pyRel := fun s t => by unfold pyRel; infer_instance

/-- Python `sorted` on a list of strings (stable, ascending). -/
def pySort (l : List String) : List String := l.insertionSort pyRel

/-- Split a code-point list on a separator character, Python `str.split(sep)`
for a one-character separator. -/
def splitOnSep (sep : Char) : List Char → List (List Char)
  | [] => [[]]
  | c :: cs =>
    let r := splitOnSep sep cs
    if c = sep then [] :: r
    else
      match r with
      | [] => [[c]]
      | h :: t => (c :: h) :: t

/-- Decimal value of a digit list (all chars assumed `0`-`9`). -/
def digitsVal (l : List Char) : Nat :=
  l.foldl (fun acc c => acc * 10 + (c.toNat - 48)) 0

/-- Gregorian leap-year rule, as `datetime` uses (proleptic Gregorian). -/
def isLeap (y : Nat) : Bool :=
  y % 4 = 0 && (y % 100 ≠ 0 || y % 400 = 0)

/-- Number of days of month `m` in year `y` (`datetime` validity bound). -/
def daysInMonth (y m : Nat) : Nat :=
  if m = 2 then (if isLeap y then 29 else 28)
  else if m = 4 ∨ m = 6 ∨ m = 9 ∨ m = 11 then 30
  else 31

/-- Model of `datetime.strptime(s, "%Y-%m-%d")`: `some (y, m, d)` when the
whole string matches (year exactly four digits, month and day one or two
digits, in range, day valid for the month, year at least 1 = `MINYEAR`),
`none` when `strptime` raises `ValueError`. -/
def parseDate (s : String) : Option (Nat × Nat × Nat) :=
  match splitOnSep '-' s.data with
  | [ys, ms, ds] =>
    if ys.all Char.isDigit && ys.length = 4 &&
       ms.all Char.isDigit && 1 ≤ ms.length && ms.length ≤ 2 &&
       ds.all Char.isDigit && 1 ≤ ds.length && ds.length ≤ 2 then
      let y := digitsVal ys
      let m := digitsVal ms
      let d := digitsVal ds
      if 1 ≤ y && 1 ≤ m && m ≤ 12 && 1 ≤ d && d ≤ daysInMonth y m then
        some (y, m, d)
      else none
    else none
  | _ => none

/-- Decimal digit character of `d < 10`. -/
def digitChar (d : Nat) : Char := Char.ofNat (48 + d)

/-- Decimal digits of `n` (fuel-bounded so that it reduces in the kernel;
enough fuel for every value produced by a four-digit year). -/
def natChopAux : Nat → Nat → List Char
  | 0, _ => []
  | fuel + 1, n =>
    if n < 10 then [digitChar n]
    else natChopAux fuel (n / 10) ++ [digitChar (n % 10)]

/-- Decimal rendering of `n`. -/
def natChars (n : Nat) : List Char := natChopAux 6 n

/-- Two-digit zero-padded rendering, `strftime` `%d` / `%m`. -/
def pad2 (n : Nat) : List Char :=
  if n < 10 then '0' :: natChars n else natChars n

/-- Four-digit zero-padded rendering, `strftime` `%Y`. -/
def pad4 (n : Nat) : List Char :=
  if n < 10 then '0' :: '0' :: '0' :: natChars n
  else if n < 100 then '0' :: '0' :: natChars n
  else if n < 1000 then '0' :: natChars n
  else natChars n

/-- Alphabet of standard base64 (`base64.b64encode`). -/
def b64alphabet : List Char :=
  "ABCDEFGHIJKLMNOPQRSTUVWXYZabcdefghijklmnopqrstuvwxyz0123456789+/".data

/-- Character for a 6-bit group. -/
def b64char (n : Nat) : Char := b64alphabet.getD n 'A'

/-- Standard base64 encoding of a byte list with `=` padding, the model of
`base64.b64encode(...).decode("ascii")`. -/
def b64encode : List Nat → List Char
  | [] => []
  | [a] => [b64char (a / 4), b64char (a % 4 * 16), '=', '=']
  | [a, b] => [b64char (a / 4), b64char (a % 4 * 16 + b / 16), b64char (b % 16 * 4), '=']
  | a :: b :: c :: rest =>
    b64char (a / 4) :: b64char (a % 4 * 16 + b / 16) ::
      b64char (b % 16 * 4 + c / 64) :: b64char (c % 64) :: b64encode rest

/-- Inline-image payload built from file bytes:
`f"data:image/png;base64,{encoded}"`. -/
def dataURI (bytes : List Nat) : String :=
  ⟨"data:image/png;base64,".data ++ b64encode bytes⟩

/-- First file of `fs` named `name`, model of opening a path (a real
directory listing has unique names, so "first" is "the"). -/
def lookupFile (fs : FS) (name : String) : Option (List Nat) :=
  ((fs : List (String × List Nat)).find? (fun p => p.1 == name)).map Prod.snd

/-- Whether a filename matches the glob pattern `{pref}*.png`: it is
`pref ++ mid ++ ".png"` for some (possibly empty) `mid`. -/
def matchesGlob (pref name : String) : Bool :=
  pref.data.isPrefixOf name.data && ".png".data.isSuffixOf (name.data.drop pref.data.length)

/-- Names in the directory matching `{pref}*.png`, model of
`IMG_DIR.glob(f"{pref}*.png")` (order irrelevant: every use sorts or
deduplicates afterwards). -/
def globNames (fs : FS) (pref : String) : List String :=
  ((fs : List (String × List Nat)).map Prod.fst).filter (matchesGlob pref)

/-- Model of `Path.stem` for a name ending in `".png"`: drop the final four
code points. -/
def stemOf (name : String) : String := ⟨name.data.take (name.data.length - 4)⟩

/-- Candidate date tag of a daily filename:
`img_path.stem.replace("divino_prec_", "", 1)`.  For a globbed name the stem
starts with the prefix, so the first occurrence is at position 0 and the
replacement drops the 12-character prefix. -/
def tagOf (name : String) : String := ⟨(stemOf name).data.drop 12⟩

/-- Keys of the `VAR_OPCOES` table. -/
inductive VarKey : Type
  | prec
  | prec_acum
deriving DecidableEq, Repr

/-- Field `label` of `VAR_OPCOES[key]`. -/
def varLabel : VarKey → String
  | .prec => "Precipitação diária (mm)"
  | .prec_acum => "Precipitação acumulada no período (mm)"

/-- Field `prefix` of `VAR_OPCOES[key]`. -/
def varPref : VarKey → String
  | .prec => "divino_prec_"
  | .prec_acum => "divino_prec_acumulada_"

/-- Field `usa_data` of `VAR_OPCOES[key]`. -/
def varUsaData : VarKey → Bool
  | .prec => true
  | .prec_acum => false

/-- Model of `listar_datas_disponiveis` on an existing directory: glob
`divino_prec_*.png`, strip prefix from the stem, keep the tags `strptime`
accepts in a set, return them sorted ascending. -/
def listar_datas_disponiveis (fs : FS) : List String :=
  pySort
    (((globNames fs "divino_prec_").filterMap
        (fun n => if (parseDate (tagOf n)).isSome then some (tagOf n) else none)).dedup)

/-- Model of `formatar_label_br`: `'2025-11-13' -> '13/11/2025'`
(`strftime("%d/%m/%Y")` after `strptime`); `none` models the `ValueError`
raised on an unparsable input. -/
def formatar_label_br (data_iso : String) : Option String :=
  (parseDate data_iso).map
    (fun p => ⟨pad2 p.2.2 ++ '/' :: pad2 p.2.1 ++ '/' :: pad4 p.1⟩)

/-- Existence check plus read-and-encode of the tail of
`carregar_imagem_base64`: `""` for a missing path, else the inline payload
of the file bytes. -/
def loadFile (fs : FS) (name : String) : String :=
  match lookupFile fs name with
  | none => ""
  | some bytes => dataURI bytes

/-- Model of `carregar_imagem_base64`: for `prec_acum` ignore the date and
take the lexicographically last file of the accumulated glob; for `prec`
build the path from prefix and date.  A missing file or empty glob yields
`""`. -/
def carregar_imagem_base64 (fs : FS) (var_key : VarKey) (data_iso : Option String) : String :=
  match var_key with
  | .prec_acum =>
    match (pySort (globNames fs "divino_prec_acumulada_")).getLast? with
    | none => ""
    | some name => loadFile fs name
  | .prec =>
    match data_iso with
    | none => ""
    | some d => loadFile fs ("divino_prec_" ++ d ++ ".png")

/-- One focus-point entry of `PONTOS_FOCO` (label with normalized
coordinates). -/
structure Ponto where
  name : String
  x : ℚ
  y : ℚ
deriving DecidableEq, Repr

/-- The scatter trace `adicionar_pontos_foco` adds: coordinate lists and
texts in table order. -/
structure Trace where
  xs : List ℚ
  ys : List ℚ
  labels : List String
deriving DecidableEq, Repr

/-- One animation frame: `go.Frame(name=d, ...)` with its image source. -/
structure Frame where
  name : String
  src : String
deriving DecidableEq, Repr

/-- One slider step: animate target (the frame name in `args`) and its
human-facing label. -/
structure SliderStep where
  target : String
  label : String
deriving DecidableEq, Repr

/-- The parts of a `go.Figure` the embedding tracks: layout images, title,
traces, animation frames, slider steps and frame duration. -/
structure Figure where
  images : List String := []
  title : Option String := none
  traces : List Trace := []
  frames : List Frame := []
  sliderSteps : List SliderStep := []
  frameDurationMs : Nat := 0
deriving DecidableEq, Repr

/-- The scatter trace built from the focus-point table. -/
def mkFocusTrace (pontos : List Ponto) : Trace :=
  ⟨pontos.map Ponto.x, pontos.map Ponto.y, pontos.map Ponto.name⟩

/-- Model of `adicionar_pontos_foco`, parameterized by the `PONTOS_FOCO`
table: no-op on an empty table, else append one scatter trace holding every
entry in table order. -/
def adicionar_pontos_foco (pontos : List Ponto) (fig : Figure) : Figure :=
  match pontos with
  | [] => fig
  | _ :: _ => { fig with traces := fig.traces ++ [mkFocusTrace pontos] }

/-- Model of `construir_figura_estatica`: empty source returns the bare
titled placeholder (no image, no focus points — the early return); otherwise
one layout image, focus points, title. -/
def construir_figura_estatica (pontos : List Ponto) (src titulo : String) : Figure :=
  if src = "" then { title := some titulo }
  else adicionar_pontos_foco pontos { images := [src], title := some titulo }

/-- Localized labels of a date list, `none` as soon as one date is
unparsable (the comprehension building `slider_steps` raises there). -/
def buildLabels : List String → Option (List String)
  | [] => some []
  | d :: ds =>
    match formatar_label_br d, buildLabels ds with
    | some l, some ls => some (l :: ls)
    | _, _ => none

/-- Model of `construir_animacao`: `none` models the `IndexError` on
`datas_iso[0]` for an empty list and the `ValueError` of
`formatar_label_br` on an unparsable tag; otherwise the figure holds the
initial image, one frame per date in order, slider steps labeled with the
localized dates, 500 ms frames, and the focus points. -/
def construir_animacao (fs : FS) (pontos : List Ponto) (var_key : VarKey)
    (datas_iso : List String) : Option Figure :=
  match datas_iso with
  | [] => none
  | d0 :: _ =>
    match buildLabels datas_iso with
    | none => none
    | some lbls =>
      some (adicionar_pontos_foco pontos
        { images := [carregar_imagem_base64 fs var_key (some d0)]
          frames := datas_iso.map (fun d => ⟨d, carregar_imagem_base64 fs var_key (some d)⟩)
          sliderSteps := (datas_iso.zip lbls).map (fun p => ⟨p.1, p.2⟩)
          frameDurationMs := 500 })

/-- Model of the callback `atualizar_mapa` (run after a successful startup
against the same snapshot `fs`, so `DATAS = listar_datas_disponiveis fs`).
`none` models an escaping exception; `some go.Figure()` models the blank
figure returned on `None` inputs. -/
def atualizar_mapa (fs : FS) (pontos : List Ponto) (data_iso : Option String)
    (var_key : Option VarKey) (modo : String) : Option Figure :=
  match var_key with
  | none => some {}
  | some vk =>
    match vk with
    | .prec_acum =>
      some (construir_figura_estatica pontos
        (carregar_imagem_base64 fs .prec_acum none) (varLabel .prec_acum))
    | .prec =>
      if modo = "dia" then
        match data_iso with
        | none => some {}
        | some d =>
          match formatar_label_br d with
          | none => none
          | some lbl =>
            some (construir_figura_estatica pontos
              (carregar_imagem_base64 fs .prec (some d))
              (varLabel .prec ++ " – " ++ lbl))
      else construir_animacao fs pontos .prec (listar_datas_disponiveis fs)

/-- Fatal startup conditions of the module body. -/
inductive StartupError : Type
  | directoryNotFound
  | noDailyData
deriving DecidableEq, Repr

/-- Value of `DATA_DEFAULT = DATAS[-1]` over a snapshot (defined only when
startup succeeded, hence the `Option`). -/
def DATA_DEFAULT (fs : FS) : Option String := (listar_datas_disponiveis fs).getLast?

/-- Model of the module-level startup: `listar_datas_disponiveis` raises
`FileNotFoundError` when `IMG_DIR` is absent (`dir = none`); the module
raises `RuntimeError` when `DATAS` is empty; otherwise it binds
`DATAS` and `DATA_DEFAULT = DATAS[-1]`. -/
def startup (dir : Option FS) : Except StartupError (List String × String) :=
  match dir with
  | none => .error .directoryNotFound
  | some fs =>
    match listar_datas_disponiveis fs, DATA_DEFAULT fs with
    | d :: ds, some dlast => .ok (d :: ds, dlast)
    | _, _ => .error .noDailyData

/-- Chronological "less or equal" on date tags: comparison of the parsed
(year, month, day) triples; false when either side is unparsable. -/
def chronoLe (s t : String) : Bool :=
  match parseDate s, parseDate t with
  | some (y1, m1, d1), some (y2, m2, d2) =>
    decide (y1 < y2 ∨ (y1 = y2 ∧ (m1 < m2 ∨ (m1 = m2 ∧ d1 ≤ d2))))
  | _, _ => false

/-- A chronological maximum of a list of date tags. -/
def isChronoMax (l : List String) (x : String) : Prop :=
  x ∈ l ∧ ∀ y ∈ l, chronoLe y x = true

instance (l : List String) (x : String) : Decidable (isChronoMax l x) := by
  unfold isChronoMax; infer_instance

/-- Markers of a scatter trace: label with coordinates, positionwise. -/
def traceMarkers (t : Trace) : List (String × ℚ × ℚ) :=
  t.labels.zip (t.xs.zip t.ys)

/-! ### Order lemmas for the Python string ordering -/

theorem lexLeN_refl : ∀ l : List Nat, lexLeN l l = true
  | [] => rfl
  | _ :: as => by simp [lexLeN, lexLeN_refl as]

theorem lexLeN_total : ∀ a b : List Nat, lexLeN a b = true ∨ lexLeN b a = true
  | [], _ => Or.inl rfl
  | _ :: _, [] => Or.inr rfl
  | x :: as, y :: bs => by
    rcases Nat.lt_trichotomy x y with h | h | h
    · left; simp [lexLeN, h]
    · subst h
      rcases lexLeN_total as bs with ih | ih
      · left; simp [lexLeN, ih]
      · right; simp [lexLeN, ih]
    · right; simp [lexLeN, h]

theorem lexLeN_trans : ∀ a b c : List Nat,
    lexLeN a b = true → lexLeN b c = true → lexLeN a c = true
  | [], _, _, _, _ => rfl
  | _ :: _, [], _, h1, _ => by simp [lexLeN] at h1
  | _ :: _, _ :: _, [], _, h2 => by simp [lexLeN] at h2
  | x :: as, y :: bs, z :: cs, h1, h2 => by
    simp only [lexLeN] at h1 h2 ⊢
    rcases Nat.lt_trichotomy x y with hxy | hxy | hxy
    · rcases Nat.lt_trichotomy y z with hyz | hyz | hyz
      · simp [Nat.lt_trans hxy hyz]
      · subst hyz; simp [hxy]
      · rw [if_neg (Nat.lt_asymm hyz), if_pos hyz] at h2; exact absurd h2 (by simp)
    · subst hxy
      rw [if_neg (Nat.lt_irrefl x), if_neg (Nat.lt_irrefl x)] at h1
      rcases Nat.lt_trichotomy x z with hyz | hyz | hyz
      · simp [hyz]
      · subst hyz
        rw [if_neg (Nat.lt_irrefl x), if_neg (Nat.lt_irrefl x)] at h2 ⊢
        exact lexLeN_trans as bs cs h1 h2
      · rw [if_neg (Nat.lt_asymm hyz), if_pos hyz] at h2; exact absurd h2 (by simp)
    · rw [if_neg (Nat.lt_asymm hxy), if_pos hxy] at h1; exact absurd h1 (by simp)

theorem pyLe_refl (s : String) : pyLe s s = true := lexLeN_refl _

instance : IsTotal String pyRel := ⟨fun _ _ => lexLeN_total _ _⟩

instance : IsTrans String pyRel := ⟨fun _ _ _ => lexLeN_trans _ _ _⟩

theorem pySort_sorted (l : List String) : (pySort l).Sorted pyRel :=
  List.sorted_insertionSort pyRel l

theorem pySort_perm (l : List String) : (pySort l).Perm l :=
  List.perm_insertionSort pyRel l

theorem mem_pySort {l : List String} {x : String} : x ∈ pySort l ↔ x ∈ l :=
  (pySort_perm l).mem_iff

/-- In a list sorted for `pyRel`, every member is `pyLe` the last element. -/
theorem sorted_le_getLast? :
    ∀ {l : List String}, l.Sorted pyRel → ∀ {x : String}, x ∈ l →
      ∃ last, l.getLast? = some last ∧ pyLe x last = true
  | [], _, x, hx => absurd hx (List.not_mem_nil x)
  | [a], _, x, hx => by
    simp only [List.mem_singleton] at hx
    exact ⟨a, rfl, hx ▸ pyLe_refl x⟩
  | a :: b :: t, hs, x, hx => by
    rcases List.mem_cons.mp hx with hxa | hxt
    · obtain ⟨last, hlast, _⟩ :=
        sorted_le_getLast? hs.of_cons (List.mem_cons_self b t)
      refine ⟨last, by rw [List.getLast?_cons_cons]; exact hlast, ?_⟩
      subst hxa
      exact List.rel_of_sorted_cons hs last (List.mem_of_mem_getLast? hlast)
    · obtain ⟨last, hlast, hle⟩ := sorted_le_getLast? hs.of_cons hxt
      exact ⟨last, by rw [List.getLast?_cons_cons]; exact hlast, hle⟩

/-! ### Catalog lemmas -/

theorem listar_sorted (fs : FS) : (listar_datas_disponiveis fs).Sorted pyRel :=
  pySort_sorted _

theorem listar_nodup (fs : FS) : (listar_datas_disponiveis fs).Nodup :=
  (pySort_perm _).nodup_iff.mpr (List.nodup_dedup _)

theorem mem_listar {fs : FS} {t : String} :
    t ∈ listar_datas_disponiveis fs ↔
      (parseDate t).isSome = true ∧
      ∃ name ∈ (fs : List (String × List Nat)).map Prod.fst,
        matchesGlob "divino_prec_" name = true ∧ tagOf name = t := by
  unfold listar_datas_disponiveis
  rw [mem_pySort, List.mem_dedup, List.mem_filterMap]
  constructor
  · rintro ⟨n, hn, hf⟩
    by_cases hp : (parseDate (tagOf n)).isSome
    · simp only [hp, if_true, Option.some.injEq] at hf
      subst hf
      rcases List.mem_filter.mp hn with ⟨hmem, hglob⟩
      exact ⟨hp, n, hmem, hglob, rfl⟩
    · simp [hp] at hf
  · rintro ⟨hp, n, hmem, hglob, htag⟩
    refine ⟨n, List.mem_filter.mpr ⟨hmem, hglob⟩, ?_⟩
    subst htag
    simp [hp]

theorem listar_valid {fs : FS} {t : String} (h : t ∈ listar_datas_disponiveis fs) :
    (parseDate t).isSome = true :=
  (mem_listar.mp h).1

/-! ### Animation helper lemmas -/

theorem buildLabels_isSome :
    ∀ {l : List String}, (∀ d ∈ l, (parseDate d).isSome = true) →
      ∃ r, buildLabels l = some r ∧ r.length = l.length ∧
        ∀ p ∈ l.zip r, formatar_label_br p.1 = some p.2
  | [], _ => ⟨[], rfl, rfl, by simp⟩
  | d :: ds, h => by
    obtain ⟨r, hr, hlen, hzip⟩ :=
      buildLabels_isSome (fun x hx => h x (List.mem_cons_of_mem d hx))
    have hd : (parseDate d).isSome = true := h d (List.mem_cons_self d ds)
    obtain ⟨lbl, hlbl⟩ : ∃ lbl, formatar_label_br d = some lbl := by
      unfold formatar_label_br
      cases hpd : parseDate d with
      | none => rw [hpd] at hd; simp at hd
      | some p => exact ⟨_, rfl⟩
    refine ⟨lbl :: r, ?_, by simp [hlen], ?_⟩
    · unfold buildLabels; rw [hlbl, hr]
    · intro p hp
      rcases List.mem_cons.mp hp with hph | hpt
      · subst hph; exact hlbl
      · exact hzip p hpt

theorem lookupFile_of_mem {fs : FS} {name : String}
    (h : name ∈ (fs : List (String × List Nat)).map Prod.fst) :
    ∃ bytes, lookupFile fs name = some bytes := by
  obtain ⟨p, hp, hname⟩ := List.mem_map.mp h
  have : ((fs : List (String × List Nat)).find? (fun q => q.1 == name)).isSome := by
    rw [List.find?_isSome]
    exact ⟨p, hp, by simp [hname]⟩
  obtain ⟨q, hq⟩ := Option.isSome_iff_exists.mp this
  exact ⟨q.2, by unfold lookupFile; rw [hq]; rfl⟩

theorem carregar_prec_missing {fs : FS} {d : String}
    (h : lookupFile fs ("divino_prec_" ++ d ++ ".png") = none) :
    carregar_imagem_base64 fs .prec (some d) = "" := by
  simp [carregar_imagem_base64, loadFile, h]

theorem adicionar_frames (pontos : List Ponto) (fig : Figure) :
    (adicionar_pontos_foco pontos fig).frames = fig.frames := by
  cases pontos <;> rfl

theorem adicionar_sliderSteps (pontos : List Ponto) (fig : Figure) :
    (adicionar_pontos_foco pontos fig).sliderSteps = fig.sliderSteps := by
  cases pontos <;> rfl

theorem adicionar_frameDurationMs (pontos : List Ponto) (fig : Figure) :
    (adicionar_pontos_foco pontos fig).frameDurationMs = fig.frameDurationMs := by
  cases pontos <;> rfl

theorem atualizar_anim_eq (fs : FS) (pontos : List Ponto) (data_iso : Option String) :
    atualizar_mapa fs pontos data_iso (some .prec) "anim" =
      construir_animacao fs pontos .prec (listar_datas_disponiveis fs) := rfl

theorem construir_animacao_spec (fs : FS) (pontos : List Ponto) (vk : VarKey)
    {datas lbls : List String} (hbl : buildLabels datas = some lbls)
    (hne : datas ≠ []) :
    ∃ fig, construir_animacao fs pontos vk datas = some fig ∧
      fig.frames = datas.map
        (fun d => ⟨d, carregar_imagem_base64 fs vk (some d)⟩) ∧
      fig.sliderSteps = (datas.zip lbls).map (fun p => ⟨p.1, p.2⟩) ∧
      fig.frameDurationMs = 500 := by
  cases datas with
  | nil => exact absurd rfl hne
  | cons d0 rest =>
    refine ⟨adicionar_pontos_foco pontos
      { images := [carregar_imagem_base64 fs vk (some d0)]
        frames := (d0 :: rest).map
          (fun d => ⟨d, carregar_imagem_base64 fs vk (some d)⟩)
        sliderSteps := ((d0 :: rest).zip lbls).map (fun p => ⟨p.1, p.2⟩)
        frameDurationMs := 500 }, ?_, ?_, ?_, ?_⟩
    · simp only [construir_animacao, hbl]
    · rw [adicionar_frames]
    · rw [adicionar_sliderSteps]
    · rw [adicionar_frameDurationMs]

/-- The animated daily route: shape of the figure it returns whenever the
catalog is non-empty. -/
theorem anim_route (fs : FS) (pontos : List Ponto) (data_iso : Option String)
    (hne : listar_datas_disponiveis fs ≠ []) :
    ∃ fig, atualizar_mapa fs pontos data_iso (some .prec) "anim" = some fig ∧
      fig.frames = (listar_datas_disponiveis fs).map
        (fun d => ⟨d, carregar_imagem_base64 fs .prec (some d)⟩) ∧
      fig.sliderSteps.map SliderStep.target = listar_datas_disponiveis fs ∧
      (∀ step ∈ fig.sliderSteps, formatar_label_br step.target = some step.label) ∧
      fig.frameDurationMs = 500 := by
  obtain ⟨lbls, hbl, hlen, hzip⟩ :=
    buildLabels_isSome (fun d hd => @listar_valid fs d hd)
  obtain ⟨fig, hfig, hframes, hsteps, hdur⟩ :=
    construir_animacao_spec fs pontos .prec hbl hne
  refine ⟨fig, by rw [atualizar_anim_eq]; exact hfig, hframes, ?_, ?_, hdur⟩
  · rw [hsteps, List.map_map]
    have : (SliderStep.target ∘ fun p : String × String => SliderStep.mk p.1 p.2) =
        Prod.fst := rfl
    rw [this]
    exact List.map_fst_zip _ _ (le_of_eq hlen.symm)
  · intro step hstep
    rw [hsteps] at hstep
    obtain ⟨p, hp, hps⟩ := List.mem_map.mp hstep
    subst hps
    exact hzip p hp

/-! ### Claim theorems -/

/-- Frame shape of `construir_animacao` for any list of parsable dates:
one frame per date, in list order, payload loaded per date, empty payload
when the date's artifact file is missing. -/
theorem animacao_frames_spec (fs : FS) (pontos : List Ponto)
    {datas : List String}
    (hval : ∀ d ∈ datas, (parseDate d).isSome = true) (hne : datas ≠ []) :
    ∃ fig, construir_animacao fs pontos .prec datas = some fig ∧
      fig.frames.map Frame.name = datas ∧
      fig.frames.length = datas.length ∧
      ∀ fr ∈ fig.frames,
        fr.src = carregar_imagem_base64 fs .prec (some fr.name) ∧
        (lookupFile fs ("divino_prec_" ++ fr.name ++ ".png") = none →
          fr.src = "") := by
  obtain ⟨lbls, hbl, -, -⟩ := buildLabels_isSome hval
  obtain ⟨fig, hfig, hframes, -, -⟩ :=
    construir_animacao_spec fs pontos .prec hbl hne
  refine ⟨fig, hfig, ?_, ?_, ?_⟩
  · rw [hframes, List.map_map]
    have hcomp : (Frame.name ∘ fun d =>
        (⟨d, carregar_imagem_base64 fs .prec (some d)⟩ : Frame)) = id := rfl
    rw [hcomp, List.map_id]
  · rw [hframes, List.length_map]
  · intro fr hfr
    rw [hframes] at hfr
    obtain ⟨d, -, hfd⟩ := List.mem_map.mp hfr
    subst hfd
    exact ⟨rfl, fun hmiss => carregar_prec_missing hmiss⟩

/-- C1: routing the date-bearing variable in animated mode returns a figure
whose frame name sequence equals the catalog `availableDates` exactly, in
ascending order, one frame per available date; and for any parsable date
list handed to the animation builder, a date whose artifact file is missing
still produces a frame, with an empty payload, rather than being skipped. -/
theorem c1_animated_frame_sequence (fs : FS) (pontos : List Ponto)
    (data_iso : Option String) (hne : listar_datas_disponiveis fs ≠ []) :
    (∃ fig, atualizar_mapa fs pontos data_iso (some .prec) "anim" = some fig ∧
      fig.frames.map Frame.name = listar_datas_disponiveis fs ∧
      fig.frames.length = (listar_datas_disponiveis fs).length ∧
      (listar_datas_disponiveis fs).Sorted pyRel ∧
      ∀ fr ∈ fig.frames,
        fr.src = carregar_imagem_base64 fs .prec (some fr.name) ∧
        (lookupFile fs ("divino_prec_" ++ fr.name ++ ".png") = none →
          fr.src = "")) ∧
    ∀ datas : List String,
      (∀ d ∈ datas, (parseDate d).isSome = true) → datas ≠ [] →
      ∃ fig, construir_animacao fs pontos .prec datas = some fig ∧
        fig.frames.map Frame.name = datas ∧
        ∀ fr ∈ fig.frames,
          lookupFile fs ("divino_prec_" ++ fr.name ++ ".png") = none →
            fr.src = "" := by
  constructor
  · obtain ⟨fig, hfig, hnames, hlen, hall⟩ :=
      animacao_frames_spec fs pontos (fun d hd => listar_valid hd) hne
    exact ⟨fig, by rw [atualizar_anim_eq]; exact hfig, hnames, hlen,
      listar_sorted fs, hall⟩
  · intro datas hval hdne
    obtain ⟨fig, hfig, hnames, -, hall⟩ := animacao_frames_spec fs pontos hval hdne
    exact ⟨fig, hfig, hnames, fun fr hfr => (hall fr hfr).2⟩

/-- C1 witness: one-file directory; the animation over the two-date list
exhibits a real missing-artifact frame (the route part runs on the
singleton catalog). -/
theorem c1_witness :
    (∃ fig, atualizar_mapa [("divino_prec_2025-11-10.png", [1, 2, 3])] [] none
        (some .prec) "anim" = some fig ∧
      fig.frames.map Frame.name =
        listar_datas_disponiveis [("divino_prec_2025-11-10.png", [1, 2, 3])] ∧
      fig.frames.length =
        (listar_datas_disponiveis [("divino_prec_2025-11-10.png", [1, 2, 3])]).length ∧
      (listar_datas_disponiveis [("divino_prec_2025-11-10.png", [1, 2, 3])]).Sorted pyRel ∧
      ∀ fr ∈ fig.frames,
        fr.src = carregar_imagem_base64 [("divino_prec_2025-11-10.png", [1, 2, 3])]
          .prec (some fr.name) ∧
        (lookupFile [("divino_prec_2025-11-10.png", [1, 2, 3])]
            ("divino_prec_" ++ fr.name ++ ".png") = none →
          fr.src = "")) ∧
    ∀ datas : List String,
      (∀ d ∈ datas, (parseDate d).isSome = true) → datas ≠ [] →
      ∃ fig, construir_animacao [("divino_prec_2025-11-10.png", [1, 2, 3])] []
          .prec datas = some fig ∧
        fig.frames.map Frame.name = datas ∧
        ∀ fr ∈ fig.frames,
          lookupFile [("divino_prec_2025-11-10.png", [1, 2, 3])]
              ("divino_prec_" ++ fr.name ++ ".png") = none →
            fr.src = "" :=
  c1_animated_frame_sequence _ [] none (by decide)

/-- C2: the date listing is the ascending-sorted deduplicated set of the
tags obtained by stripping the daily prefix from a globbed filename's stem
and keeping exactly those the date parser accepts; unparsable suffixes
contribute nothing (and the listing is a total function — no exception). -/
theorem c2_catalog_characterization (fs : FS) :
    (listar_datas_disponiveis fs).Sorted pyRel ∧
    (listar_datas_disponiveis fs).Nodup ∧
    ∀ t, t ∈ listar_datas_disponiveis fs ↔
      (parseDate t).isSome = true ∧
      ∃ name ∈ (fs : List (String × List Nat)).map Prod.fst,
        matchesGlob "divino_prec_" name = true ∧ tagOf name = t :=
  ⟨listar_sorted fs, listar_nodup fs, fun _ => mem_listar⟩

/-- C2 witness: on a concrete directory with a stray unparsable name, the
characterization yields membership of the valid tag and uniqueness. -/
theorem c2_witness :
    (listar_datas_disponiveis
      [("divino_prec_2025-11-10.png", []),
       ("divino_prec_garbage.png", [7])]).Nodup ∧
    "2025-11-10" ∈ listar_datas_disponiveis
      [("divino_prec_2025-11-10.png", []),
       ("divino_prec_garbage.png", [7])] :=
  ⟨(c2_catalog_characterization _).2.1,
   ((c2_catalog_characterization _).2.2 "2025-11-10").mpr
     ⟨by decide, "divino_prec_2025-11-10.png", by decide, by decide, by decide⟩⟩

/-- C4: for the non-date-bearing variable, two requests differing only in
the supplied date and/or mode return identical figures — the accumulated
branch reads neither input. -/
theorem c4_acum_ignores_date_mode (fs : FS) (pontos : List Ponto)
    (d1 d2 : Option String) (m1 m2 : String) :
    atualizar_mapa fs pontos d1 (some .prec_acum) m1 =
      atualizar_mapa fs pontos d2 (some .prec_acum) m2 := rfl

/-- C10: `construir_animacao` is undefined (raises) exactly on an empty date
list, and inside the route this cannot happen after a successful startup:
a non-empty catalog makes the animated branch return a figure. -/
theorem c10_animation_precondition (fs : FS) (pontos : List Ponto)
    (vk : VarKey) (data_iso : Option String)
    (hne : listar_datas_disponiveis fs ≠ []) :
    construir_animacao fs pontos vk [] = none ∧
    (atualizar_mapa fs pontos data_iso (some .prec) "anim").isSome = true := by
  refine ⟨rfl, ?_⟩
  obtain ⟨fig, hroute, -, -, -, -⟩ := anim_route fs pontos data_iso hne
  rw [hroute]
  rfl

/-- C10 witness: instantiation on a one-file directory. -/
theorem c10_witness :
    construir_animacao [("divino_prec_2025-11-10.png", [])] [] VarKey.prec [] = none ∧
    (atualizar_mapa [("divino_prec_2025-11-10.png", [])] [] none
      (some .prec) "anim").isSome = true :=
  c10_animation_precondition _ [] VarKey.prec none (by decide)

theorem construir_estatica_title (pontos : List Ponto) (src titulo : String) :
    (construir_figura_estatica pontos src titulo).title = some titulo := by
  unfold construir_figura_estatica
  by_cases h : src = ""
  · rw [if_pos h]
  · rw [if_neg h]
    cases pontos <;> rfl

theorem carregar_acum_empty {fs : FS}
    (hglob : globNames fs "divino_prec_acumulada_" = []) :
    carregar_imagem_base64 fs .prec_acum none = "" := by
  simp [carregar_imagem_base64, hglob, pySort]

/-- C3: after a successful startup, no "not found" condition raises: a
date-bearing request for a valid date with no artifact file, and the
non-date-bearing variable with an empty glob, both load an empty payload
and yield a figure that is an empty placeholder (no image, no trace, no
frame) rather than an exception. -/
theorem c3_not_found_is_empty_payload (fs : FS) (pontos : List Ponto)
    (d modo : String)
    (hstart : listar_datas_disponiveis fs ≠ [])
    (hd : (parseDate d).isSome = true)
    (hmiss : lookupFile fs ("divino_prec_" ++ d ++ ".png") = none)
    (hglob : globNames fs "divino_prec_acumulada_" = []) :
    carregar_imagem_base64 fs .prec (some d) = "" ∧
    carregar_imagem_base64 fs .prec_acum none = "" ∧
    (∃ fig, atualizar_mapa fs pontos (some d) (some .prec) "dia" = some fig ∧
      fig.images = [] ∧ fig.traces = [] ∧ fig.frames = []) ∧
    (∃ fig, atualizar_mapa fs pontos (some d) (some .prec_acum) modo = some fig ∧
      fig.images = [] ∧ fig.traces = [] ∧ fig.frames = []) := by
  have hsrc : carregar_imagem_base64 fs .prec (some d) = "" :=
    carregar_prec_missing hmiss
  have hacum : carregar_imagem_base64 fs .prec_acum none = "" :=
    carregar_acum_empty hglob
  refine ⟨hsrc, hacum, ?_, ?_⟩
  · cases hpd : parseDate d with
    | none => rw [hpd] at hd; simp at hd
    | some p =>
      have hlbl : formatar_label_br d =
          some ⟨pad2 p.2.2 ++ '/' :: pad2 p.2.1 ++ '/' :: pad4 p.1⟩ := by
        unfold formatar_label_br
        rw [hpd]
        rfl
      refine ⟨{ title := some (varLabel .prec ++ " – " ++
        (⟨pad2 p.2.2 ++ '/' :: pad2 p.2.1 ++ '/' :: pad4 p.1⟩ : String)) },
        ?_, rfl, rfl, rfl⟩
      simp only [atualizar_mapa, hlbl, hsrc]
      simp [construir_figura_estatica]
  · refine ⟨{ title := some (varLabel .prec_acum) }, ?_, rfl, rfl, rfl⟩
    simp only [atualizar_mapa, hacum]
    simp [construir_figura_estatica]

/-- C3 witness: a one-file directory, the absent date 2025-11-12, and no
accumulated artifact at all. -/
theorem c3_witness :
    carregar_imagem_base64 [("divino_prec_2025-11-10.png", [1])] .prec
      (some "2025-11-12") = "" ∧
    carregar_imagem_base64 [("divino_prec_2025-11-10.png", [1])] .prec_acum none = "" ∧
    (∃ fig, atualizar_mapa [("divino_prec_2025-11-10.png", [1])] []
        (some "2025-11-12") (some .prec) "dia" = some fig ∧
      fig.images = [] ∧ fig.traces = [] ∧ fig.frames = []) ∧
    (∃ fig, atualizar_mapa [("divino_prec_2025-11-10.png", [1])] []
        (some "2025-11-12") (some .prec_acum) "dia" = some fig ∧
      fig.images = [] ∧ fig.traces = [] ∧ fig.frames = []) :=
  c3_not_found_is_empty_payload _ [] "2025-11-12" "dia"
    (by decide) (by decide) (by decide) (by decide)

/-- C5 counterexample: `strptime("%Y-%m-%d")` accepts non-zero-padded
months/days, and `sorted` on the raw tags is lexicographic, so with the
files `divino_prec_2025-9-1.png` and `divino_prec_2025-10-01.png` the
default date is `2025-9-1` (September 1st) although the chronological
maximum of the catalog is `2025-10-01` (October 1st). -/
theorem c5_counterexample :
    DATA_DEFAULT
        [("divino_prec_2025-9-1.png", []), ("divino_prec_2025-10-01.png", [])] =
      some "2025-9-1" ∧
    ¬ isChronoMax
        (listar_datas_disponiveis
          [("divino_prec_2025-9-1.png", []), ("divino_prec_2025-10-01.png", [])])
        "2025-9-1" ∧
    isChronoMax
        (listar_datas_disponiveis
          [("divino_prec_2025-9-1.png", []), ("divino_prec_2025-10-01.png", [])])
        "2025-10-01" := by decide

/-- C5 amended: whenever the catalog is non-empty, the default date is the
last element of the ascending-sorted listing, i.e. the maximum of
`availableDates` under the lexicographic string order used by the sort
(chronological order coincides with it only on canonically zero-padded
tags, which the counterexample's tags are not). -/
theorem c5_default_is_lex_max (fs : FS)
    (hne : listar_datas_disponiveis fs ≠ []) :
    ∃ dmax, DATA_DEFAULT fs = some dmax ∧
      dmax ∈ listar_datas_disponiveis fs ∧
      ∀ t ∈ listar_datas_disponiveis fs, pyLe t dmax = true := by
  have hsome : (listar_datas_disponiveis fs).getLast?.isSome = true :=
    List.getLast?_isSome.mpr hne
  obtain ⟨dmax, hlast⟩ := Option.isSome_iff_exists.mp hsome
  refine ⟨dmax, hlast, List.mem_of_mem_getLast? hlast, ?_⟩
  intro t ht
  obtain ⟨last, hl2, hle⟩ := sorted_le_getLast? (listar_sorted fs) ht
  cases hlast.symm.trans hl2
  exact hle

/-- C5 witness: instantiation of the amended statement on a two-date
catalog. -/
theorem c5_witness :
    ∃ dmax, DATA_DEFAULT
        [("divino_prec_2025-11-10.png", []), ("divino_prec_2025-11-12.png", [])] =
        some dmax ∧
      dmax ∈ listar_datas_disponiveis
        [("divino_prec_2025-11-10.png", []), ("divino_prec_2025-11-12.png", [])] ∧
      ∀ t ∈ listar_datas_disponiveis
        [("divino_prec_2025-11-10.png", []), ("divino_prec_2025-11-12.png", [])],
        pyLe t dmax = true :=
  c5_default_is_lex_max _ (by decide)

/-- C6 counterexample: with a non-empty annotation table and the empty
"not found" payload, the static builder returns the placeholder without
merging the overlay — no trace at all — contradicting "for every payload
(including the empty one) ... one marker per table entry". -/
theorem c6_counterexample :
    (construir_figura_estatica [⟨"Casa", 45 / 100, 60 / 100⟩] "" "t").traces = [] ∧
    ([⟨"Casa", 45 / 100, 60 / 100⟩] : List Ponto) ≠ [] := by decide

/-- C6 amended: for every non-empty payload the static builder merges the
annotation overlay — exactly one scatter trace holding one marker per table
entry, at its normalized coordinates, labeled with its name, in table
order — and an empty table is a no-op; for the empty payload the
placeholder carries no overlay. -/
theorem c6_overlay_merge (pontos : List Ponto) (src titulo : String) :
    (src ≠ "" → pontos ≠ [] →
      (construir_figura_estatica pontos src titulo).traces = [mkFocusTrace pontos] ∧
      traceMarkers (mkFocusTrace pontos) =
        pontos.map (fun p => (p.name, p.x, p.y))) ∧
    (src ≠ "" → pontos = [] →
      (construir_figura_estatica pontos src titulo).traces = []) ∧
    (src = "" → (construir_figura_estatica pontos src titulo).traces = []) := by
  refine ⟨fun hsrc hp => ⟨?_, ?_⟩, fun hsrc hp => ?_, fun hsrc => ?_⟩
  · unfold construir_figura_estatica
    rw [if_neg hsrc]
    cases pontos with
    | nil => exact absurd rfl hp
    | cons q qs => rfl
  · simp [traceMarkers, mkFocusTrace, List.zip_map']
  · subst hp
    unfold construir_figura_estatica
    rw [if_neg hsrc]
    rfl
  · simp [construir_figura_estatica, hsrc]

/-- C6 witness: a one-entry table merged over a non-empty payload, and the
empty-payload placeholder. -/
theorem c6_witness :
    (construir_figura_estatica [⟨"Casa", 45 / 100, 60 / 100⟩] "x" "t").traces =
      [mkFocusTrace [⟨"Casa", 45 / 100, 60 / 100⟩]] ∧
    traceMarkers (mkFocusTrace [⟨"Casa", 45 / 100, 60 / 100⟩]) =
      [("Casa", 45 / 100, 60 / 100)] ∧
    (construir_figura_estatica [] "x" "t").traces = [] :=
  ⟨((c6_overlay_merge [⟨"Casa", 45 / 100, 60 / 100⟩] "x" "t").1
      (by decide) (by decide)).1,
   by
    rw [((c6_overlay_merge [⟨"Casa", 45 / 100, 60 / 100⟩] "x" "t").1
      (by decide) (by decide)).2]
    rfl,
   (c6_overlay_merge [] "x" "t").2.1 (by decide) rfl⟩

/-- C7 counterexample: the daily static title joins label and localized
date with an en dash `" – "` (U+2013), not the claimed em dash `" — "`
(U+2014): on a concrete one-file directory the produced title differs from
the claimed construction. -/
theorem c7_counterexample :
    (atualizar_mapa [("divino_prec_2025-11-13.png", [])] [] (some "2025-11-13")
        (some VarKey.prec) "dia").map Figure.title =
      some (some ("Precipitação diária (mm) – 13/11/2025")) ∧
    ("Precipitação diária (mm) – 13/11/2025" : String) ≠
      varLabel VarKey.prec ++ " — " ++ "13/11/2025" := by decide

/-- C7 amended: the daily static title is the variable's human label,
`" – "` (en dash), then the localized date rendered `DD/MM/YYYY` (day and
month zero-padded to two digits, year to four); the animation slider steps
carry the same localization of each frame's date tag, in catalog order. -/
theorem c7_title_and_slider_labels (fs : FS) (pontos : List Ponto)
    (d : String) {y m dd : Nat} (hp : parseDate d = some (y, m, dd))
    (hne : listar_datas_disponiveis fs ≠ []) :
    (∃ fig, atualizar_mapa fs pontos (some d) (some .prec) "dia" = some fig ∧
      fig.title = some (varLabel .prec ++ " – " ++
        (⟨pad2 dd ++ '/' :: pad2 m ++ '/' :: pad4 y⟩ : String))) ∧
    (∃ fig, atualizar_mapa fs pontos none (some .prec) "anim" = some fig ∧
      fig.sliderSteps.map SliderStep.target = listar_datas_disponiveis fs ∧
      ∀ step ∈ fig.sliderSteps,
        formatar_label_br step.target = some step.label) := by
  constructor
  · have hlbl : formatar_label_br d =
        some ⟨pad2 dd ++ '/' :: pad2 m ++ '/' :: pad4 y⟩ := by
      unfold formatar_label_br
      rw [hp]
      rfl
    refine ⟨construir_figura_estatica pontos
      (carregar_imagem_base64 fs .prec (some d))
      (varLabel .prec ++ " – " ++
        (⟨pad2 dd ++ '/' :: pad2 m ++ '/' :: pad4 y⟩ : String)), ?_, ?_⟩
    · simp only [atualizar_mapa, hlbl]
      simp
    · exact construir_estatica_title _ _ _
  · obtain ⟨fig, hroute, -, hsteps, hlbls, -⟩ := anim_route fs pontos none hne
    exact ⟨fig, hroute, hsteps, hlbls⟩

/-- C7 witness: instantiation on a one-file directory and its date. -/
theorem c7_witness :
    (∃ fig, atualizar_mapa [("divino_prec_2025-11-13.png", [9])] []
        (some "2025-11-13") (some .prec) "dia" = some fig ∧
      fig.title = some (varLabel .prec ++ " – " ++
        (⟨pad2 13 ++ '/' :: pad2 11 ++ '/' :: pad4 2025⟩ : String))) ∧
    (∃ fig, atualizar_mapa [("divino_prec_2025-11-13.png", [9])] [] none
        (some .prec) "anim" = some fig ∧
      fig.sliderSteps.map SliderStep.target =
        listar_datas_disponiveis [("divino_prec_2025-11-13.png", [9])] ∧
      ∀ step ∈ fig.sliderSteps,
        formatar_label_br step.target = some step.label) :=
  c7_title_and_slider_labels _ [] "2025-11-13" (by decide) (by decide)

/-- C8: resolving the non-date-bearing variable selects the
lexicographically greatest filename among the accumulated glob matches
(sort ascending, take the last) and returns its encoded payload; with no
match it returns the empty payload instead of raising. -/
theorem c8_latest_accumulated (fs : FS) :
    (globNames fs "divino_prec_acumulada_" ≠ [] →
      ∃ best, (pySort (globNames fs "divino_prec_acumulada_")).getLast? = some best ∧
        best ∈ globNames fs "divino_prec_acumulada_" ∧
        (∀ x ∈ globNames fs "divino_prec_acumulada_", pyLe x best = true) ∧
        ∃ bytes, lookupFile fs best = some bytes ∧
          carregar_imagem_base64 fs .prec_acum none = dataURI bytes) ∧
    (globNames fs "divino_prec_acumulada_" = [] →
      carregar_imagem_base64 fs .prec_acum none = "") := by
  refine ⟨?_, fun h => carregar_acum_empty h⟩
  intro hne
  have hsne : pySort (globNames fs "divino_prec_acumulada_") ≠ [] := by
    intro hnil
    have hlen := (pySort_perm (globNames fs "divino_prec_acumulada_")).length_eq
    rw [hnil] at hlen
    exact hne (List.length_eq_zero.mp hlen.symm)
  obtain ⟨best, hlast⟩ :=
    Option.isSome_iff_exists.mp (List.getLast?_isSome.mpr hsne)
  have hbest : best ∈ globNames fs "divino_prec_acumulada_" :=
    mem_pySort.mp (List.mem_of_mem_getLast? hlast)
  obtain ⟨bytes, hb⟩ :=
    lookupFile_of_mem (List.mem_filter.mp hbest).1
  refine ⟨best, hlast, hbest, ?_, bytes, hb, ?_⟩
  · intro x hx
    obtain ⟨last, hl2, hle⟩ :=
      sorted_le_getLast? (pySort_sorted _) (mem_pySort.mpr hx)
    cases hlast.symm.trans hl2
    exact hle
  · simp only [carregar_imagem_base64, hlast, loadFile, hb]

/-- C8 witness: two accumulated files; the later range string wins, and a
directory with no accumulated file yields the empty payload. -/
theorem c8_witness :
    (∃ best, (pySort (globNames
        [("divino_prec_acumulada_2025-11-08_a_2025-11-10.png", [2]),
         ("divino_prec_acumulada_2025-11-10_a_2025-11-12.png", [1])]
        "divino_prec_acumulada_")).getLast? = some best ∧
      best ∈ globNames
        [("divino_prec_acumulada_2025-11-08_a_2025-11-10.png", [2]),
         ("divino_prec_acumulada_2025-11-10_a_2025-11-12.png", [1])]
        "divino_prec_acumulada_" ∧
      (∀ x ∈ globNames
        [("divino_prec_acumulada_2025-11-08_a_2025-11-10.png", [2]),
         ("divino_prec_acumulada_2025-11-10_a_2025-11-12.png", [1])]
        "divino_prec_acumulada_", pyLe x best = true) ∧
      ∃ bytes, lookupFile
          [("divino_prec_acumulada_2025-11-08_a_2025-11-10.png", [2]),
           ("divino_prec_acumulada_2025-11-10_a_2025-11-12.png", [1])] best =
          some bytes ∧
        carregar_imagem_base64
          [("divino_prec_acumulada_2025-11-08_a_2025-11-10.png", [2]),
           ("divino_prec_acumulada_2025-11-10_a_2025-11-12.png", [1])]
          .prec_acum none = dataURI bytes) ∧
    carregar_imagem_base64 [("divino_prec_2025-11-10.png", [7])] .prec_acum none = "" :=
  ⟨(c8_latest_accumulated _).1 (by decide),
   (c8_latest_accumulated [("divino_prec_2025-11-10.png", [7])]).2 (by decide)⟩

theorem startup_of_empty {fs : FS} (h : listar_datas_disponiveis fs = []) :
    startup (some fs) = .error .noDailyData := by
  simp only [startup]
  rw [h]

theorem startup_of_nonempty {fs : FS} (h : listar_datas_disponiveis fs ≠ []) :
    ∃ dlast, startup (some fs) = .ok (listar_datas_disponiveis fs, dlast) ∧
      DATA_DEFAULT fs = some dlast := by
  obtain ⟨dlast, hlast⟩ :=
    Option.isSome_iff_exists.mp (List.getLast?_isSome.mpr h)
  refine ⟨dlast, ?_, hlast⟩
  cases hl : listar_datas_disponiveis fs with
  | nil => exact absurd hl h
  | cons d ds =>
    have hdd : DATA_DEFAULT fs = some dlast := hlast
    simp only [startup]
    rw [hdd, hl]

/-- C9: startup fails exactly under the two fatal conditions — the scan
raises when the image directory is absent, and the module refuses to start
when zero daily dates are discovered; in every other situation startup
succeeds, binding the catalog and its default date. -/
theorem c9_startup_failure_conditions :
    startup none = Except.error StartupError.directoryNotFound ∧
    (∀ fs : FS, listar_datas_disponiveis fs = [] ↔
      startup (some fs) = .error .noDailyData) ∧
    (∀ dir : Option FS, (∃ e, startup dir = .error e) ↔
      (dir = none ∨ ∃ fs, dir = some fs ∧ listar_datas_disponiveis fs = [])) := by
  refine ⟨rfl, fun fs => ⟨startup_of_empty, ?_⟩, ?_⟩
  · intro h
    by_contra hcon
    obtain ⟨dlast, hok, -⟩ := startup_of_nonempty hcon
    rw [hok] at h
    exact Except.noConfusion h
  · intro dir
    cases dir with
    | none => exact ⟨fun _ => Or.inl rfl, fun _ => ⟨.directoryNotFound, rfl⟩⟩
    | some fs =>
      constructor
      · rintro ⟨e, he⟩
        by_cases hl : listar_datas_disponiveis fs = []
        · exact Or.inr ⟨fs, rfl, hl⟩
        · obtain ⟨dlast, hok, -⟩ := startup_of_nonempty hl
          rw [hok] at he
          exact Except.noConfusion he
      · rintro (h | ⟨fs', hfs', hl⟩)
        · exact Option.noConfusion h
        · cases Option.some.inj hfs'
          exact ⟨.noDailyData, startup_of_empty hl⟩

/-- C9 witness: the missing directory and an empty (thus zero-artifact)
directory both abort; the example directory starts up. -/
theorem c9_witness :
    startup (some ([] : FS)) = Except.error StartupError.noDailyData ∧
    (∃ e, startup (none : Option FS) = Except.error e) :=
  ⟨(c9_startup_failure_conditions.2.1 ([] : FS)).mp (by decide),
   (c9_startup_failure_conditions.2.2 none).mpr (Or.inl rfl)⟩
